import Mathlib

/-!
Verification of pydantic-kitbash's field-data extraction logic.

This file gives a shallow embedding, in Lean 4, of the extraction and
rendering helpers of the repository:

* `src/pydantic_kitbash/utils.py` — `get_pydantic_model`, `find_fieldinfo`,
  `is_deprecated`, `get_enum_values`, `get_enum_member_docstring`,
  `is_enum_type`, `get_annotation_docstring`, `format_type_string`;
* `src/pydantic_kitbash/base.py` — `_get_optional_field_data`,
  `_get_enum_field_data`, `_get_optional_annotated_field_data`,
  `_build_examples_block`, and the section-node skeleton of
  `_create_field_node`;
* `src/pydantic_kitbash/field_directive.py` — the type dispatch, the
  description-override handling and the display-alias computation of
  `KitbashFieldDirective.run`;
* `src/pydantic_kitbash/model_directive.py` — the per-field render
  decision of `KitbashModelDirective.run`.

Python exceptions are made explicit: each fallible embedded operation
returns `Except PyErr _` (or pairs its result with an `Option PyErr`
when, as in Python, attribute mutations performed before the exception
survive it).  Machine-level detail that the code never relies on
(Unicode word characters in regexes, tab expansion in `inspect.cleandoc`)
is noted at the definition it concerns.
-/

namespace Kitbash

/-- Kinds of Python exception the embedded code can raise.  `importError`
stands for `ImportError`, `extensionError` for `sphinx.errors.ExtensionError`,
`keyError` for a dict `KeyError`; the rest match the builtin of the same
name. -/
inductive PyErr
  | importError
  | attributeError
  | typeError
  | valueError
  | indexError
  | keyError
  | extensionError
deriving DecidableEq, Repr

/-- Python constant literals, as stored in an `ast.Constant` node. -/
inductive PyConst
  | str (s : String)
  | int (n : Int)
  | bool (b : Bool)
  | noneConst
deriving DecidableEq, Repr

/-- Python `str()` of a constant (the `str(...)` applied to
`docstring_node_value.value` and the f-string over `attr_value.value`). -/
def pyConstStr : PyConst → String
  | .str s => s
  | .int n => toString n
  | .bool b => if b then "True" else "False"
  | .noneConst => "None"

/-- Expressions, restricted to the shapes the docstring scanners inspect.
`constant` is an `ast.Constant` and owns a `.value` attribute; `name` is an
`ast.Name`; `call` an `ast.Call`.  The latter two have no `.value`
attribute, so reading `.value` from them raises `AttributeError`. -/
inductive PyExpr
  | constant (c : PyConst)
  | name (id : String)
  | call (func : String)
deriving DecidableEq, Repr

/-- Statements of a (flat) class body, restricted to the shapes the
scanners distinguish: `assign` is `ast.Assign` (`x = v`, possibly with
several targets), `annAssign` is `ast.AnnAssign` (`x: T` or `x: T = v`),
`exprStmt` is `ast.Expr` (a bare expression statement such as a trailing
string literal), and `passStmt` stands for any other statement kind. -/
inductive Stmt
  | assign (targets : List PyExpr) (value : PyExpr)
  | annAssign (target : PyExpr)
  | exprStmt (value : PyExpr)
  | passStmt
deriving DecidableEq, Repr

/-- Python `s.startswith(pre)`, computed on the character lists. -/
def strStartsWith (s pre : String) : Bool :=
  pre.data.isPrefixOf s.data

/-- Python `s.endswith(suf)`, computed on the character lists. -/
def strEndsWith (s suf : String) : Bool :=
  suf.data.isSuffixOf s.data

/-- Python `s.split(c)` for a single-character separator, on character
lists: splitting the empty string gives `[[]]`, as `"".split(",")` gives
`[""]`. -/
def splitOnChar (c : Char) : List Char → List (List Char)
  | [] => [[]]
  | x :: rest =>
    let r := splitOnChar c rest
    if x = c then [] :: r
    else
      match r with
      | [] => [[x]]
      | h :: t => (x :: h) :: t

/-- Reading `.value` from the expression held by an `ast.Expr` statement:
`str(cast(ast.Constant, node.value).value)`.  The `cast` is a no-op at
runtime, so a non-`Constant` expression raises `AttributeError` when its
missing `.value` attribute is read. -/
def exprValueStr : PyExpr → Except PyErr String
  | .constant c => .ok (pyConstStr c)
  | .name _ => .error .attributeError
  | .call _ => .error .attributeError

/-- Embedding of `utils.get_enum_member_docstring` (utils.py:168-199),
specialised to the parsed class body (`tree.body` holds the single
`ClassDef`; `node.body` is the statement list passed here).  The source
enumerates `node.body`; on an `ast.Assign` one of whose `ast.Name` targets
equals `enum_member` it reads `node.body[i + 1]` — an `IndexError` when the
assignment is the last statement — and returns the string of its constant
when that next statement is an `ast.Expr`; otherwise the loop continues,
and `None` is returned after the loop. -/
def get_enum_member_docstring (body : List Stmt) (enum_member : String) :
    Except PyErr (Option String) :=
  match body with
  | [] => .ok none
  | stmt :: rest =>
    match stmt with
    | .assign targets _ =>
      if targets.any (fun t => match t with | .name id => id = enum_member | _ => false) then
        match rest with
        | [] => .error .indexError
        | next :: _ =>
          match next with
          | .exprStmt v => (exprValueStr v).map some
          | _ => get_enum_member_docstring rest enum_member
      else get_enum_member_docstring rest enum_member
    | _ => get_enum_member_docstring rest enum_member

/-- Embedding of `utils.get_annotation_docstring` (utils.py:218-250).  The
source walks the tree in `ast.walk` (breadth-first) order; for a flat class
body that order visits the body statements in sequence and then their child
expression nodes, so the single node inspected after the matching
`ast.AnnAssign` is the next sibling statement when one exists, and a child
expression node (never an `ast.Expr` statement) otherwise.  The source
reads `.id` from the target through a no-op `cast(ast.Name, ...)`, so a
non-`Name` target raises `AttributeError`. -/
def get_annotation_docstring (body : List Stmt) (annot_name : String) :
    Except PyErr (Option String) :=
  match body with
  | [] => .ok none
  | stmt :: rest =>
    match stmt with
    | .annAssign (.name id) =>
      if id = annot_name then
        match rest with
        | .exprStmt v :: _ => (exprValueStr v).map some
        | _ => .ok none
      else get_annotation_docstring rest annot_name
    | .annAssign _ => .error .attributeError
    | _ => get_annotation_docstring rest annot_name

/-- The non-underscore members of an enum class body, in declaration order,
with their constant values: the `(attr, attr_value)` pairs that
`enum_class.__dict__.items()` yields for the members when
`utils.get_enum_values` iterates it (class-namespace dicts preserve
declaration order; leading-underscore attributes are filtered by the
source's `if not attr.startswith("_")`). -/
def enumMembers (body : List Stmt) : List (String × PyConst) :=
  body.foldl
    (fun acc stmt =>
      match stmt with
      | .assign targets (.constant v) =>
        acc ++ targets.filterMap (fun t =>
          match t with
          | .name id => if strStartsWith id "_" then none else some (id, v)
          | _ => none)
      | _ => acc)
    []

/-- Embedding of `utils.get_enum_values` (utils.py:144-165): for each
member, look up its docstring with `get_enum_member_docstring`, keep
`(f"{attr_value.value}", f"{docstring}")` when the docstring is truthy
(non-`None` and non-empty), and propagate any exception the scan raises. -/
def get_enum_values (body : List Stmt) : Except PyErr (List (String × String)) :=
  (enumMembers body).foldlM
    (fun acc m => do
      let doc ← get_enum_member_docstring body m.1
      match doc with
      | some d => if d ≠ "" then pure (acc ++ [(pyConstStr m.2, d)]) else pure acc
      | none => pure acc)
    []

/-- A Python value as stored in a `FieldInfo.deprecated` marker and as
returned by `utils.is_deprecated`: `None`, a `bool`, or a `str`. -/
inductive PyVal
  | noneVal
  | boolVal (b : Bool)
  | strVal (s : String)
deriving DecidableEq, Repr

/-- Python truthiness of a `PyVal`: `None` and `False` are falsy, and so is
the empty string. -/
def pyTruthy : PyVal → Bool
  | .noneVal => false
  | .boolVal b => b
  | .strVal s => s ≠ ""

/-- The slice of a `pydantic.fields.FieldInfo` object the directives read:
serialization alias, JSON description, examples and the `deprecated`
marker.  (The type annotation is carried separately, see `PyType`.) -/
structure FieldParams where
  aliasName : Option String
  description : Option String
  examples : Option (List String)
  deprecated : PyVal
deriving DecidableEq, Repr

/-- The slice of a resolved pydantic model class that `is_deprecated` and
the model directive read: `__annotations__` (names only) and
`model_fields`. -/
structure ModelClass where
  annots : List String
  model_fields : List (String × FieldParams)
deriving DecidableEq, Repr

/-- Embedding of `utils.is_deprecated` (utils.py:114-141).  A field absent
from `model.__annotations__` raises `ValueError`; a field present there but
absent from `model_fields` raises the dict `KeyError`.  Otherwise the
`deprecated` marker is read (`getattr(..., "deprecated", None)`): when
truthy, a string marker is returned prefixed with `"Deprecated. "` and any
other truthy marker becomes `"This key is deprecated."`; when falsy the
marker itself — which may be `False` or `""` rather than `None` — is
returned unchanged. -/
def is_deprecated (model : ModelClass) (field : String) : Except PyErr PyVal :=
  if field ∉ model.annots then .error .valueError
  else
    match model.model_fields.lookup field with
    | none => .error .keyError
    | some field_params =>
      let warning := field_params.deprecated
      if pyTruthy warning then
        match warning with
        | .strVal s => .ok (.strVal ("Deprecated. " ++ s))
        | _ => .ok (.strVal "This key is deprecated.")
      else .ok warning

/-- Characters Python `str.lstrip()`/`str.strip()` remove. -/
def isPySpace (c : Char) : Bool :=
  c = ' ' || c = '\t' || c = '\n' || c = '\r' || c = '\x0b' || c = '\x0c'

/-- Python `s.strip()`, on character lists. -/
def strTrim (s : String) : String :=
  String.mk (((s.data.dropWhile isPySpace).reverse.dropWhile isPySpace).reverse)

/-- The `include-deprecated` option parsed as in model_directive.py:73-76:
`options.get("include-deprecated", "").split(",")` with each element
stripped.  When the option is absent this is `[""]`. -/
def includeDeprecatedList (opt : Option String) : List String :=
  (splitOnChar ',' (opt.getD "").data).map (fun l => strTrim (String.mk l))

/-- Whether a field name is private/internal for the model directive:
`field.startswith(("_", "model_"))`. -/
def isPrivateField (field : String) : Bool :=
  strStartsWith field "_" || strStartsWith field "model_"

/-- Embedding of the per-field render decision of
`KitbashModelDirective.run` (model_directive.py:82-92): the deprecation
warning is computed by `is_deprecated` for non-private fields and is `None`
for private ones, and the field is rendered when
`not field.startswith(("_", "model_")) and deprecation_warning is None
or field in include_deprecated` — note the `is None` comparison and the
Python precedence `(A and B) or C`. -/
def modelDirectiveRenders (model : ModelClass) (includeOpt : Option String)
    (field : String) : Except PyErr Bool := do
  let deprecation_warning ←
    if ¬ isPrivateField field then is_deprecated model field
    else pure PyVal.noneVal
  pure ((!isPrivateField field && (deprecation_warning == PyVal.noneVal))
    || (includeDeprecatedList includeOpt).contains field)

/-- A class found in a module during import resolution, as
`utils.get_pydantic_model` classifies it: a pydantic model class (with its
`model_fields` names and its method-resolution order), some other class, or
a non-class attribute.  Each MRO entry records whether it is a `BaseModel`
subclass and its own `__annotations__`. -/
structure MroEntry where
  clsName : String
  isBaseModel : Bool
  annots : List String
deriving DecidableEq, Repr

/-- A module attribute as seen by `get_pydantic_model`'s checks. -/
inductive ModuleAttr
  | modelClass (fields : List String) (mro : List MroEntry)
  | nonModelClass
  | nonClass
deriving DecidableEq, Repr

/-- An importable-module environment: module name to attribute table.
This stands for `importlib` plus `getattr`; the names reachable this way
are exactly the loaded classes the real directive can resolve. -/
def ModuleEnv := List (String × List (String × ModuleAttr))

/-- Python `model_path.rsplit(".", maxsplit=1)` unpacked into two names:
`none` models the `ValueError` raised by `module_str, class_str = ...` when
the path has no dot. -/
def rsplitDot (s : String) : Option (String × String) :=
  if s.data.contains '.' then
    some (String.mk (s.data.reverse.dropWhile (· ≠ '.')).tail.reverse,
          String.mk (s.data.reverse.takeWhile (· ≠ '.')).reverse)
  else none

/-- The `model_path` assembled in utils.py:50: prefix with the current
module when one is set. -/
def mkModelPath (py_module model_name : String) : String :=
  if py_module ≠ "" then py_module ++ "." ++ model_name else model_name

/-- The MRO walk of utils.py:74-81: the first `BaseModel` subclass in the
MRO whose own `__annotations__` contain the field, defaulting to the class
originally looked up when none matches. -/
def mroResolve (mro : List MroEntry) (field : String) (dflt : MroEntry) : MroEntry :=
  match mro.find? (fun c => c.isBaseModel && c.annots.contains field) with
  | some c => c
  | none => dflt

/-- Embedding of `utils.get_pydantic_model` (utils.py:34-83).  Error paths,
in source order: a dotless `model_path` fails tuple unpacking
(`ValueError`); `importlib.import_module("")` raises `ValueError` (not a
`ModuleNotFoundError`, so it is not converted); a module that cannot be
imported raises `ImportError`; a module without the attribute raises
`AttributeError`; an attribute that is not a `BaseModel` subclass raises
`TypeError`; a requested field missing from `model_fields` raises
`AttributeError`.  On success the MRO walk picks the declaring class. -/
def get_pydantic_model (env : ModuleEnv) (py_module model_name field_name : String) :
    Except PyErr MroEntry :=
  let model_path := mkModelPath py_module model_name
  match rsplitDot model_path with
  | none => .error .valueError
  | some (module_str, class_str) =>
    if module_str = "" then .error .valueError
    else
      match env.lookup module_str with
      | none => .error .importError
      | some module =>
        match module.lookup class_str with
        | none => .error .attributeError
        | some .nonClass => .error .typeError
        | some .nonModelClass => .error .typeError
        | some (.modelClass fields mro) =>
          if field_name ≠ "" then
            if ¬ fields.contains field_name then .error .attributeError
            else .ok (mroResolve mro field_name
              (mro.headD { clsName := class_str, isBaseModel := true, annots := [] }))
          else .ok (mro.headD { clsName := class_str, isBaseModel := true, annots := [] })

/-- The description/examples slice of a `FieldInfo` appearing inside an
`Annotated[...]` metadata tuple. -/
structure FieldInfoData where
  description : Option String
  examples : Option (List String)
deriving DecidableEq, Repr

/-- One element of an annotated type's `__metadata__` tuple: a pydantic
`BeforeValidator`, an `AfterValidator`, or a `FieldInfo`. -/
inductive MetaElem
  | beforeValidator
  | afterValidator
  | fieldInfo (fi : FieldInfoData)
deriving DecidableEq, Repr

/-- Embedding of `utils.find_fieldinfo` (utils.py:86-111): iterate over the
metadata tuple (when not `None`) and keep overwriting `result` with each
`FieldInfo` instance encountered, so the last one wins. -/
def find_fieldinfo : Option (List MetaElem) → Option FieldInfoData
  | none => none
  | some metadata =>
    metadata.foldl
      (fun result element =>
        match element with
        | .fieldInfo fi => some fi
        | _ => result)
      none

/-- The last-occurring field-metadata object of a metadata sequence, stated
the way the spec words it ("scan the annotated type's metadata sequence for
the last-occurring field-metadata object").  Used only to compare
`find_fieldinfo` against the spec. -/
def specLastFieldInfo (metadata : List MetaElem) : Option FieldInfoData :=
  metadata.reverse.findSome? (fun element =>
    match element with
    | .fieldInfo fi => some fi
    | _ => none)

/-- Python type annotations, restricted to the shapes the directives
dispatch on.  `cls` is a plain class with its dotted qualified name
(`module.Qualname`, as printed inside `str(type)`), an is-enum flag, the
statement list of its parsed source (used by the enum docstring scan) and
its `__doc__`.  `generic` is a parameterized generic alias such as
`list[str]`, carrying its `str()` and its `__args__`.  `literalType` is a
`typing.Literal[...]` form, `unionType` a PEP-604 `X | Y`
(`types.UnionType`), `typingUnion` a `typing.Union[...]`, `annotated` an
`Annotated[base, *metadata]` alias, and `noneType` is `NoneType`. -/
inductive PyType
  | cls (qualname : String) (isEnum : Bool) (body : List Stmt) (doc : Option String)
  | generic (reprStr : String) (args : List PyType)
  | literalType (reprStr : String)
  | unionType (args : List PyType)
  | typingUnion (args : List PyType)
  | annotated (base : PyType) (metadata : List MetaElem)
  | noneType

/-- The `[-1]` piece of Python `s.split(".")[-1]`: everything after the
last dot, or the whole list when there is no dot. -/
def lastDotSegmentChars (cs : List Char) : List Char :=
  (cs.reverse.takeWhile (· ≠ '.')).reverse

/-- Python `s.split(".")[-1]`. -/
def lastDotSegment (s : String) : String :=
  String.mk (lastDotSegmentChars s.data)

/- Python `str()` of a type annotation.  A plain class prints as
`<class 'module.Qualname'>`; an enum class prints as `<enum 'Name'>` with
the bare class name (the last dotted segment of the qualified name);
`NoneType` prints as `<class 'NoneType'>`; generic aliases and `Literal`
forms print their own textual form; unions print their members joined with
`" | "`; `Annotated` reuses the base's form (only its shape matters to the
embedded code, which never formats an `Annotated` alias directly). -/
mutual

/-- Python `str()` of a type annotation; see the comment above `mutual`. -/
def typeStr : PyType → String
  | .cls qualname isEnum _ _ =>
    if isEnum then "<enum '" ++ lastDotSegment qualname ++ "'>"
    else "<class '" ++ qualname ++ "'>"
  | .generic reprStr _ => reprStr
  | .literalType reprStr => reprStr
  | .unionType args => typeStrJoin args
  | .typingUnion args => typeStrJoin args
  | .annotated base _ => typeStr base
  | .noneType => "<class 'NoneType'>"

/-- The members of a union joined with `" | "`, as Python prints union
annotations. -/
def typeStrJoin : List PyType → String
  | [] => ""
  | [t] => typeStr t
  | t :: rest => typeStr t ++ " | " ++ typeStrJoin rest

end

/-- Matching of `utils.TYPE_STR_EXPR`, the anchored regex
`<[^ ]+ '([^']+)'>` of utils.py:30, against the character list of a string:
a `<`, a non-empty run of non-space characters, a space, a quote, the
non-empty capture of non-quote characters, then `'>`.  Returns the capture
group.  (`re.match` anchors at the start only; trailing text is ignored,
as here.) -/
def matchTypeStrChars : List Char → Option (List Char)
  | [] => none
  | c0 :: rest =>
    if c0 = '<' then
      let tok := rest.takeWhile (· ≠ ' ')
      if tok.isEmpty then none
      else
        match rest.dropWhile (· ≠ ' ') with
        | sp :: q1 :: rest3 =>
          if sp = ' ' ∧ q1 = '\'' then
            let captured := rest3.takeWhile (· ≠ '\'')
            if captured.isEmpty then none
            else
              match rest3.dropWhile (· ≠ '\'') with
              | q2 :: gt :: _ =>
                if q2 = '\'' ∧ gt = '>' then some captured else none
              | _ => none
          else none
        | _ => none
    else none

/-- `re.match(TYPE_STR_EXPR, s)` returning group 1. -/
def matchTypeStr (s : String) : Option String :=
  (matchTypeStrChars s.data).map String.mk

/-- A character the regex class `\w` matches.  The embedded regexes are
only ever applied to ASCII type strings, so ASCII alphanumerics and the
underscore suffice. -/
def isWordChar (c : Char) : Bool :=
  c.isAlphanum || c = '_'

/-- Parse one identifier (`[A-Za-z_]\w*`) at the head of the input,
returning it and the rest. -/
def parseIdentChars : List Char → Option (List Char × List Char)
  | [] => none
  | c :: rest =>
    if c.isAlpha || c = '_' then
      some (c :: rest.takeWhile isWordChar, rest.dropWhile isWordChar)
    else none

/-- Greedily parse the `(?:[A-Za-z_]\w*\.)+` group of
`utils.MODULE_PREFIX_EXPR`: as many `identifier.` units as possible,
returning the identifiers and the rest of the input after the last
consumed dot.  Fueled to make the recursion structural. -/
def parseDotUnits : Nat → List Char → List (List Char) × List Char
  | 0, cs => ([], cs)
  | Nat.succ fuel, cs =>
    match parseIdentChars cs with
    | some (id, '.' :: rest) =>
      let (units, rem) := parseDotUnits fuel rest
      (id :: units, rem)
    | _ => ([], cs)

/-- Attempt to match `MODULE_PREFIX_EXPR` — `\b(?:[A-Za-z_]\w*\.)+
([A-Za-z_]\w*)` — at the current position (the caller has already checked
the word boundary).  Returns the capture group (the replacement, since the
substitution is `\1`) and the rest of the input after the match.  When the
greedy unit run leaves no identifier for the capture, the regex backtracks
one unit: its identifier becomes the capture and that unit's dot is left
unconsumed. -/
def matchModulePathAt (cs : List Char) : Option (List Char × List Char) :=
  let p := parseDotUnits cs.length cs
  match p.1 with
  | [] => none
  | u :: us =>
    match parseIdentChars p.2 with
    | some (cap, rest2) => some (cap, rest2)
    | none =>
      match us with
      | [] => none
      | _ => some ((u :: us).getLast (by simp), '.' :: p.2)

/-- The scan of `re.sub(MODULE_PREFIX_EXPR, r"\1", s)`: try the pattern at
each word-boundary position whose character can start an identifier,
emit the capture group on a match and resume after the matched text,
otherwise copy one character.  `prevWord` tracks whether the previous
character of the original string was a `\w` character (for `\b`).
Fueled by the input length; every step consumes at least one character. -/
def subModulePathChars : Nat → Bool → List Char → List Char
  | 0, _, cs => cs
  | Nat.succ fuel, prevWord, cs =>
    match cs with
    | [] => []
    | c :: rest =>
      if !prevWord && (c.isAlpha || c = '_') then
        match matchModulePathAt (c :: rest) with
        | some (cap, rest2) => cap ++ subModulePathChars fuel true rest2
        | none => c :: subModulePathChars fuel (isWordChar c) rest
      else c :: subModulePathChars fuel (isWordChar c) rest

/-- `re.sub(MODULE_PREFIX_EXPR, r"\1", s)`: strip dotted module paths down
to their last identifier. -/
def stripModulePaths (s : String) : String :=
  String.mk (subModulePathChars s.data.length false s.data)

/-- Embedding of `utils.format_type_string` (utils.py:253-276): `""` for
`None`; otherwise apply the module-path substitution to `str(type_str)`,
and when the anchored `TYPE_STR_EXPR` matches, override the result with
the last dotted segment of its capture group. -/
def format_type_string : Option PyType → String
  | none => ""
  | some t =>
    let s := typeStr t
    match matchTypeStr s with
    | some g => lastDotSegment g
    | none => stripModulePaths s

/-- The mutable per-field attributes of `KitbashDirective` that the
extraction steps assign (base.py:58-79): the FieldEntry of the spec. -/
structure ExtractState where
  field_type : Option String
  field_description : Option String
  field_examples : Option (List String)
  field_values : List (String × String)
deriving DecidableEq, Repr

/-- The reset state `_init_fields`/`_clean_instance_fields` produce. -/
def ExtractState.init : ExtractState :=
  { field_type := none, field_description := none, field_examples := none,
    field_values := [] }

/-- Embedding of `utils.is_enum_type` (utils.py:202-215):
`isinstance(annotation, type) and issubclass(annotation, Enum)`.  Plain
classes (including `NoneType`) are instances of `type`; generic aliases,
`Literal` forms, unions and `Annotated` aliases are not. -/
def is_enum_type : PyType → Bool
  | .cls _ isEnum _ _ => isEnum
  | _ => false

/-- Python `issubclass(t, enum.Enum)` as used without an `isinstance`
guard in base.py:302.  A plain class answers its enum flag; a
parameterized generic alias answers `False` without raising (CPython
forwards the check to the alias origin); a union or other special form
raises `TypeError` (`issubclass() arg 1 must be a class`). -/
def issubclassEnum : PyType → Except PyErr Bool
  | .cls _ isEnum _ _ => .ok isEnum
  | .noneType => .ok false
  | .generic _ _ => .ok false
  | _ => .error .typeError

/-- `typing.get_args` as called in base.py:300 (the argument is always a
`types.UnionType` there; other forms yield `()`). -/
def pyGetArgs : PyType → List PyType
  | .unionType args => args
  | .typingUnion args => args
  | _ => []

/-- The `__doc__` attribute read in base.py:304 and base.py:324. -/
def pyDoc : PyType → Option String
  | .cls _ _ _ doc => doc
  | _ => none

/-- The statement list of the class body that `inspect.getsource` plus
`ast.parse` recover for a class (utils.py:183-184), over which the enum
docstring scan runs. -/
def pyBody : PyType → List Stmt
  | .cls _ _ body _ => body
  | _ => []

/-- Whether the annotation owns an `__args__` attribute
(`hasattr(annotated_type, "__args__")`, base.py:345). -/
def pyHasArgs : PyType → Bool
  | .generic _ _ => true
  | .literalType _ => true
  | .unionType _ => true
  | .typingUnion _ => true
  | .annotated _ _ => true
  | _ => false

/-- The `__args__` attribute itself.  For an `Annotated[base, *meta]`
alias, `__args__` is the one-element tuple `(base,)`. -/
def pyArgsAttr : PyType → List PyType
  | .generic _ args => args
  | .literalType _ => []
  | .unionType args => args
  | .typingUnion args => args
  | .annotated base _ => [base]
  | _ => []

/-- `get_origin(annotated_type) != Literal` (base.py:345). -/
def originIsLiteral : PyType → Bool
  | .literalType _ => true
  | _ => false

/-- The `__metadata__` attribute (`getattr(annotated_type, "__metadata__",
None)`, base.py:349). -/
def pyMetadata : PyType → Option (List MetaElem)
  | .annotated _ metadata => some metadata
  | _ => none

/-- Embedding of `KitbashDirective._get_optional_field_data`
(base.py:288-308).  `union_args[0]` is read (an `IndexError` on an empty
tuple, which the guarded call sites never produce), `field_type` is
assigned its formatted string, and when `issubclass(union_args[0],
enum.Enum)` holds the description defaults to the enum class docstring and
`field_values` is filled by `get_enum_values`.  Assignments performed
before an exception survive it, so the state reached so far is returned
alongside the error. -/
def _get_optional_field_data (st : ExtractState) (annot : PyType) :
    ExtractState × Option PyErr :=
  match pyGetArgs annot with
  | [] => (st, some .indexError)
  | arg0 :: _ =>
    let st1 := { st with field_type := some (format_type_string (some arg0)) }
    match issubclassEnum arg0 with
    | .error e => (st1, some e)
    | .ok false => (st1, none)
    | .ok true =>
      let st2 := { st1 with
        field_description :=
          if st1.field_description = none then pyDoc arg0
          else st1.field_description }
      match get_enum_values (pyBody arg0) with
      | .ok vals => ({ st2 with field_values := vals }, none)
      | .error e => (st2, some e)

/-- Embedding of `KitbashDirective._get_enum_field_data`
(base.py:310-329): when the annotation is truthy, default the description
to the enum class docstring and fill `field_values` from the class
source. -/
def _get_enum_field_data (st : ExtractState) (annot : Option PyType) :
    ExtractState × Option PyErr :=
  match annot with
  | none => (st, none)
  | some ann =>
    let st1 := { st with
      field_description :=
        if st.field_description = none then pyDoc ann
        else st.field_description }
    match get_enum_values (pyBody ann) with
    | .ok vals => ({ st1 with field_values := vals }, none)
    | .error e => (st1, some e)

/-- Embedding of `KitbashDirective._get_optional_annotated_field_data`
(base.py:331-357).  When the annotation is truthy: read
`annotation.__args__[0]` (an `AttributeError` when `__args__` is missing,
an `IndexError` when it is empty); unless that inner type is a `Literal`
form, and provided it has `__args__` of its own, assign `field_type` from
its first argument; then find the last `FieldInfo` in its `__metadata__`
and, when one exists and neither description nor examples is set yet,
assign both from it. -/
def _get_optional_annotated_field_data (st : ExtractState) (annot : Option PyType) :
    ExtractState × Option PyErr :=
  match annot with
  | none => (st, none)
  | some ann =>
    if pyHasArgs ann then
      match pyArgsAttr ann with
      | [] => (st, some .indexError)
      | annotated_type :: _ =>
        let step1 : ExtractState ⊕ PyErr :=
          if !originIsLiteral annotated_type && pyHasArgs annotated_type then
            match pyArgsAttr annotated_type with
            | [] => .inr .indexError
            | inner0 :: _ =>
              .inl { st with field_type := some (format_type_string (some inner0)) }
          else .inl st
        match step1 with
        | .inr e => (st, some e)
        | .inl st1 =>
          match find_fieldinfo (pyMetadata annotated_type) with
          | some field_annot =>
            if st1.field_description = none ∧ st1.field_examples = none then
              ({ st1 with
                  field_description := field_annot.description,
                  field_examples := field_annot.examples }, none)
            else (st1, none)
          | none => (st1, none)
    else (st, some .attributeError)

/-- The annotation dispatch shared by `KitbashFieldDirective.run`
(field_directive.py:92-102) and `KitbashModelDirective.run`
(model_directive.py:114-130): a truthy `types.UnionType` annotation goes
through `_get_optional_field_data`, anything else formats the annotation
into `field_type`; afterwards a `typing.Union` annotation goes through
`_get_optional_annotated_field_data`, and an enum annotation through
`_get_enum_field_data`.  An exception in the first phase propagates
(aborting the run) with the mutations already performed. -/
def runTypeDispatch (st : ExtractState) (annot : Option PyType) :
    ExtractState × Option PyErr :=
  let phase1 : ExtractState × Option PyErr :=
    match annot with
    | some (.unionType args) => _get_optional_field_data st (.unionType args)
    | _ => ({ st with field_type := some (format_type_string annot) }, none)
  match phase1 with
  | (st1, some e) => (st1, some e)
  | (st1, none) =>
    match annot with
    | some (.typingUnion args) =>
      _get_optional_annotated_field_data st1 (some (.typingUnion args))
    | some ann =>
      if is_enum_type ann then _get_enum_field_data st1 (some ann) else (st1, none)
    | none => (st1, none)

/-- Embedding of `inspect.cleandoc` as used in field_directive.py:119 and
base.py:258: split into lines, compute the minimum indentation of the
non-blank lines after the first, remove that margin from them, strip
leading whitespace from the first line, and drop leading and trailing
empty lines.  (The source string is assumed tab-free; `expandtabs` is the
identity then.) -/
def cleandoc (doc : String) : String :=
  let lines := splitOnChar '\n' doc.data
  let margins := (lines.drop 1).filterMap (fun l =>
    if (l.dropWhile isPySpace).isEmpty then none
    else some (l.length - (l.dropWhile isPySpace).length))
  let lines1 :=
    match lines with
    | [] => []
    | first :: rest =>
      let first1 := first.dropWhile isPySpace
      match margins.min? with
      | some m => first1 :: rest.map (List.drop m)
      | none => first1 :: rest
  let lines2 := (lines1.reverse.dropWhile List.isEmpty).reverse
  let lines3 := lines2.dropWhile List.isEmpty
  String.intercalate "\n" (lines3.map String.mk)

/-- Embedding of the description-override handling of
`KitbashFieldDirective.run` (field_directive.py:106-122).  With the
`override-description` option, empty directive content is a usage error
(`sphinx.errors.ExtensionError`) and non-empty content replaces the
description wholesale; without the option, non-empty content is appended
to the (cleandoc-dedented) description with a blank-line separator, or
becomes the description when none is set; otherwise the description is
left alone. -/
def applyDescriptionOptions (overrideFlag : Bool) (content : List String)
    (field_description : Option String) : Except PyErr (Option String) :=
  if overrideFlag then
    if content.isEmpty then .error .extensionError
    else .ok (some (String.intercalate "\n" content))
  else if !content.isEmpty then
    let supplemental := String.intercalate "\n" content
    .ok (some (match field_description with
      | some d => if d ≠ "" then cleandoc d ++ "\n\n" ++ supplemental else supplemental
      | none => supplemental))
  else .ok field_description

/-- Truthiness of an optional string, as Python tests
`field_params.alias`. -/
def truthyStrOpt : Option String → Bool
  | some s => s ≠ ""
  | none => false

/-- `field_params.alias if field_params.alias else self.field_name`
(field_directive.py:78, model_directive.py:97-99). -/
def baseAlias (aliasName : Option String) (field_name : String) : String :=
  if truthyStrOpt aliasName then aliasName.getD "" else field_name

/-- The prefix/suffix concatenation of field_directive.py:132-142 (and the
identical model_directive.py:132-146): a truthy `prepend-name` option is
joined in front with a `"."`, then a truthy `append-name` option is joined
behind with a `"."`. -/
def applyNameAffixes (field_alias namePre nameSuf : String) : String :=
  let fa := if namePre ≠ "" then namePre ++ "." ++ field_alias else field_alias
  if nameSuf ≠ "" then fa ++ "." ++ nameSuf else fa

/-- The ids of the section node `_create_field_node` builds (base.py:91):
`nodes.section(ids=[self.field_alias, self.label])`. -/
def createFieldNodeIds (field_alias label : String) : List String :=
  [field_alias, label]

/-- The text of the title node of `_create_field_node` (base.py:93). -/
def createFieldNodeTitle (field_alias : String) : String :=
  field_alias

/-- Outcome of `yaml.dump(yaml.safe_load(text), ...)` on the assembled
example text: the dumped serialization, or a `yaml.YAMLError` for
malformed input.  The YAML library is outside the repository, so the
round-trip is a parameter of the embedding. -/
inductive YamlResult
  | ok (dumped : String)
  | yamlError
deriving DecidableEq, Repr

/-- Python `s.rstrip("\n")`. -/
def rstripNewlines (s : String) : String :=
  String.mk (s.data.reverse.dropWhile (· = '\n')).reverse

/-- Python `s.removesuffix("...")` (base.py:233). -/
def removesuffixDots (s : String) : String :=
  if strEndsWith s "..." then String.mk (s.data.take (s.data.length - 3)) else s

/-- The raw YAML text `_build_examples_block` assembles and hands to the
parser (base.py:213-215): the example prefixed with the last dotted
segment of the display alias as a mapping key, with a final newline
ensured. -/
def exampleYamlInput (field_alias exampleText : String) : String :=
  let keyed := lastDotSegment field_alias ++ ": " ++ exampleText
  if strEndsWith keyed "\n" then keyed else keyed ++ "\n"

/-- Embedding of `KitbashDirective._build_examples_block`
(base.py:198-238).  The Boolean records whether the `UserWarning` was
emitted.  On a successful round-trip the literal block shows the dump; on
a `yaml.YAMLError` a warning is emitted and the block shows the assembled
raw input instead.  Either way trailing newlines and a trailing YAML
document-end marker `...` are stripped. -/
def _build_examples_block (roundTrip : String → YamlResult)
    (field_alias exampleText : String) : Bool × String :=
  match roundTrip (exampleYamlInput field_alias exampleText) with
  | .ok dumped => (false, removesuffixDots (rstripNewlines dumped))
  | .yamlError => (true, removesuffixDots (rstripNewlines (exampleYamlInput field_alias exampleText)))

/-! ### Supporting lemmas about the embedded string helpers -/

theorem takeWhile_append_cons {p : Char → Bool} {l : List Char} {c : Char}
    {r : List Char} (hl : ∀ x ∈ l, p x) (hc : ¬ p c) :
    (l ++ c :: r).takeWhile p = l := by
  induction l with
  | nil => simp [List.takeWhile_cons, hc]
  | cons a as ih =>
    have ha : p a := hl a (List.mem_cons_self a as)
    simp only [List.cons_append, List.takeWhile_cons_of_pos ha]
    rw [ih (fun x hx => hl x (List.mem_cons_of_mem a hx))]

theorem dropWhile_append_cons {p : Char → Bool} {l : List Char} {c : Char}
    {r : List Char} (hl : ∀ x ∈ l, p x) (hc : ¬ p c) :
    (l ++ c :: r).dropWhile p = c :: r := by
  induction l with
  | nil => simp [List.dropWhile_cons, hc]
  | cons a as ih =>
    have ha : p a := hl a (List.mem_cons_self a as)
    simp only [List.cons_append, List.dropWhile_cons_of_pos ha]
    exact ih (fun x hx => hl x (List.mem_cons_of_mem a hx))

theorem matchTypeStrChars_bracket {tag q : List Char}
    (htag : tag ≠ []) (htag' : ∀ x ∈ tag, x ≠ ' ')
    (hq : q ≠ []) (hq' : ∀ x ∈ q, x ≠ '\'') :
    matchTypeStrChars ('<' :: (tag ++ ' ' :: '\'' :: (q ++ ['\'', '>']))) = some q := by
  obtain ⟨a, as, rfl⟩ := List.exists_cons_of_ne_nil htag
  obtain ⟨b, bs, rfl⟩ := List.exists_cons_of_ne_nil hq
  have htw : ((a :: as) ++ ' ' :: '\'' :: ((b :: bs) ++ ['\'', '>'])).takeWhile
      (fun x => x ≠ ' ') = a :: as :=
    takeWhile_append_cons (fun x hx => decide_eq_true (htag' x hx)) (by simp)
  have hdw : ((a :: as) ++ ' ' :: '\'' :: ((b :: bs) ++ ['\'', '>'])).dropWhile
      (fun x => x ≠ ' ') = ' ' :: '\'' :: ((b :: bs) ++ ['\'', '>']) :=
    dropWhile_append_cons (fun x hx => decide_eq_true (htag' x hx)) (by simp)
  have htw2 : ((b :: bs) ++ ['\'', '>']).takeWhile (fun x => x ≠ '\'') = b :: bs := by
    have := takeWhile_append_cons (l := b :: bs) (c := '\'') (r := ['>'])
      (fun x hx => decide_eq_true (hq' x hx)) (by simp)
    simpa using this
  have hdw2 : ((b :: bs) ++ ['\'', '>']).dropWhile (fun x => x ≠ '\'') = ['\'', '>'] := by
    have := dropWhile_append_cons (l := b :: bs) (c := '\'') (r := ['>'])
      (fun x hx => decide_eq_true (hq' x hx)) (by simp)
    simpa using this
  simp only [matchTypeStrChars, htw, hdw, htw2, hdw2]
  simp

theorem matchTypeStr_bracketed (tag : String) (q : String)
    (htag : tag.data ≠ []) (htag' : ∀ x ∈ tag.data, x ≠ ' ')
    (hq : q.data ≠ []) (hq' : ∀ x ∈ q.data, x ≠ '\'') :
    matchTypeStr ("<" ++ tag ++ " '" ++ q ++ "'>") = some q := by
  unfold matchTypeStr
  have hdata : ("<" ++ tag ++ " '" ++ q ++ "'>").data
      = '<' :: (tag.data ++ ' ' :: '\'' :: (q.data ++ ['\'', '>'])) := by
    simp only [String.data_append]
    simp
  rw [hdata, matchTypeStrChars_bracket htag htag' hq hq']
  rfl

theorem mem_of_mem_lastDotSegmentChars {cs : List Char} {x : Char}
    (h : x ∈ lastDotSegmentChars cs) : x ∈ cs := by
  unfold lastDotSegmentChars at h
  rw [List.mem_reverse] at h
  exact List.mem_reverse.mp ((List.takeWhile_prefix _).sublist.mem h)

theorem lastDotSegmentChars_noDot {cs : List Char} :
    ∀ x ∈ lastDotSegmentChars cs, x ≠ '.' := by
  intro x hx
  unfold lastDotSegmentChars at hx
  rw [List.mem_reverse] at hx
  simpa using List.mem_takeWhile_imp hx

theorem lastDotSegmentChars_eq_self {cs : List Char} (h : ∀ x ∈ cs, x ≠ '.') :
    lastDotSegmentChars cs = cs := by
  unfold lastDotSegmentChars
  rw [List.takeWhile_eq_self_iff.mpr
    (fun a ha => decide_eq_true (h a (List.mem_reverse.mp ha))), List.reverse_reverse]

theorem lastDotSegment_idem (s : String) :
    lastDotSegment (lastDotSegment s) = lastDotSegment s := by
  unfold lastDotSegment
  have hdata : (String.mk (lastDotSegmentChars s.data)).data
      = lastDotSegmentChars s.data := rfl
  rw [hdata, lastDotSegmentChars_eq_self (fun x hx => lastDotSegmentChars_noDot x hx)]

theorem format_type_string_cls (q : String) (isEnum : Bool) (body : List Stmt)
    (doc : Option String) (hq : q.data ≠ []) (hq' : ∀ x ∈ q.data, x ≠ '\'')
    (hlast : lastDotSegmentChars q.data ≠ []) :
    format_type_string (some (.cls q isEnum body doc)) = lastDotSegment q := by
  cases isEnum with
  | false =>
    have hcls : typeStr (.cls q false body doc) = "<" ++ "class" ++ " '" ++ q ++ "'>" := by
      unfold typeStr
      simp
    have hm : matchTypeStr (typeStr (.cls q false body doc)) = some q := by
      rw [hcls]
      exact matchTypeStr_bracketed "class" q (by decide) (by decide) hq hq'
    simp only [format_type_string, hm]
  | true =>
    have henum : typeStr (.cls q true body doc)
        = "<" ++ "enum" ++ " '" ++ lastDotSegment q ++ "'>" := by
      unfold typeStr
      simp
    have hlq : (lastDotSegment q).data ≠ [] := hlast
    have hlq' : ∀ x ∈ (lastDotSegment q).data, x ≠ '\'' :=
      fun x hx => hq' x (mem_of_mem_lastDotSegmentChars hx)
    have hm : matchTypeStr (typeStr (.cls q true body doc)) = some (lastDotSegment q) := by
      rw [henum]
      exact matchTypeStr_bracketed "enum" (lastDotSegment q) (by decide) (by decide) hlq hlq'
    simp only [format_type_string, hm, lastDotSegment_idem]

theorem runTypeDispatch_unionType_head_field_type (st : ExtractState) (t : PyType)
    (rest : List PyType) (ht : issubclassEnum t = .ok true ∨ issubclassEnum t = .ok false) :
    (runTypeDispatch st (some (.unionType (t :: rest)))).1.field_type
      = some (format_type_string (some t)) := by
  unfold runTypeDispatch _get_optional_field_data
  rcases ht with h | h <;>
    simp only [pyGetArgs, h, is_enum_type] <;>
    cases hv : get_enum_values (pyBody t) <;>
    simp [hv, is_enum_type]

/-! ### Claim theorems -/

/-- C3: for a field whose declared type is the optional wrapper `T | None`
around a concrete class `T` (qualified name `q`, enum or not), the
extraction pipeline sets `field_type` to the formatted name of the wrapped
type — the last dotted segment of `q` — and in particular never to the
string "Optional" (the wrapped type, not the union, is what gets
formatted), provided `T` is not itself a class named `Optional`.  The
hypotheses only state that `q` is a well-formed qualified class name:
non-empty, quote-free, with a non-empty final segment. -/
theorem C3_optional_wrapped_type_label (st : ExtractState) (q : String)
    (isEnum : Bool) (body : List Stmt) (doc : Option String)
    (hq : q.data ≠ []) (hq' : ∀ x ∈ q.data, x ≠ '\'')
    (hlast : lastDotSegmentChars q.data ≠ []) :
    (runTypeDispatch st (some (.unionType [.cls q isEnum body doc, .noneType]))).1.field_type
      = some (lastDotSegment q)
    ∧ (lastDotSegment q ≠ "Optional" →
      (runTypeDispatch st (some (.unionType [.cls q isEnum body doc, .noneType]))).1.field_type
        ≠ some "Optional") := by
  have h1 : (runTypeDispatch st
      (some (.unionType [.cls q isEnum body doc, .noneType]))).1.field_type
      = some (format_type_string (some (.cls q isEnum body doc))) := by
    apply runTypeDispatch_unionType_head_field_type
    cases isEnum with
    | false => exact Or.inr rfl
    | true => exact Or.inl rfl
  rw [h1, format_type_string_cls q isEnum body doc hq hq' hlast]
  exact ⟨rfl, fun hno hcontra => hno (by injection hcontra)⟩

/-- C3 witness: the optional field `int | None` (qualified class name
`builtins.int`) yields the type label `int`, which is not "Optional". -/
theorem C3_optional_wrapped_type_label_witness :
    (runTypeDispatch ExtractState.init
      (some (.unionType [.cls "builtins.int" false [] none, .noneType]))).1.field_type
      = some "int"
    ∧ (runTypeDispatch ExtractState.init
      (some (.unionType [.cls "builtins.int" false [] none, .noneType]))).1.field_type
      ≠ some "Optional" := by
  have h := C3_optional_wrapped_type_label ExtractState.init "builtins.int" false [] none
    (by decide) (by decide) (by decide)
  have hseg : lastDotSegment "builtins.int" = "int" := by decide
  exact ⟨by rw [h.1, hseg], by rw [hseg] at h; exact h.2 (by decide)⟩

theorem matchTypeStrChars_not_lt {cs : List Char} (h : cs.head? ≠ some '<') :
    matchTypeStrChars cs = none := by
  cases cs with
  | nil => rfl
  | cons c rest =>
    have hc : ¬ (c = '<') := fun e => h (by simp [e])
    simp only [matchTypeStrChars, if_neg hc]

/-- C10: extracting the optional field data is total when the non-None
union member is a parameterized generic alias (such as `list[str]`) rather
than a plain class: the `issubclass(union_args[0], enum.Enum)` check
answers False without raising, the extraction finishes without any
exception, and a type label is still produced — the module-path-stripped
textual form of the generic (stated for a form that does not itself begin
with `<`, which generic reprs never do). -/
theorem C10_optional_generic_total (st : ExtractState) (reprStr : String)
    (args : List PyType) :
    (runTypeDispatch st (some (.unionType [.generic reprStr args, .noneType]))).2 = none
    ∧ (reprStr.data.head? ≠ some '<' →
      (runTypeDispatch st (some (.unionType [.generic reprStr args, .noneType]))).1.field_type
        = some (stripModulePaths reprStr)) := by
  constructor
  · rfl
  · intro h
    have hm : matchTypeStr reprStr = none := by
      unfold matchTypeStr
      rw [matchTypeStrChars_not_lt h]
      rfl
    simp [runTypeDispatch, _get_optional_field_data, pyGetArgs, issubclassEnum,
      is_enum_type, format_type_string, hm, typeStr]

/-- C10 witness: the optional generic field `list[str] | None` extracts
without an exception and labels the type `list[str]`. -/
theorem C10_optional_generic_total_witness :
    (runTypeDispatch ExtractState.init
      (some (.unionType [.generic "list[str]" [], .noneType]))).2 = none
    ∧ (runTypeDispatch ExtractState.init
      (some (.unionType [.generic "list[str]" [], .noneType]))).1.field_type
        = some "list[str]" := by
  have h := C10_optional_generic_total ExtractState.init "list[str]" []
  refine ⟨h.1, ?_⟩
  rw [h.2 (by decide)]
  decide

/-- C1: the source-docstring scan does not uniformly yield no docstring
when no statement follows the matching assignment.  For the enum-member
scan, querying member `VAL` of a class body whose only statement is
`VAL = "one"` reads `node.body[i + 1]` out of range and raises
`IndexError` instead of returning None.  The annotated-assignment scan, by
contrast, does return None on the analogous input (after the last
statement, `ast.walk` yields child expression nodes, never a trailing
`ast.Expr` statement). -/
theorem C1_enum_scan_last_statement_index_error :
    get_enum_member_docstring [.assign [.name "VAL"] (.constant (.str "one"))] "VAL"
      = .error .indexError
    ∧ get_annotation_docstring [.annAssign (.name "field1")] "field1" = .ok none := by
  exact ⟨rfl, rfl⟩

/-- C2: `get_enum_values` does not omit a member without an adjacent
trailing string literal when that member is the last statement of the
class body — it raises `IndexError` there.  On the enum body
`VAL1 = "one"` / `"""The first value."""` / `VAL2 = "two"` (docstring,
then a documented member, then an undocumented final member) the claimed
result would be `[("one", "The first value.")]`, but the scan of `VAL2`
reads past the end of the body. -/
theorem C2_enum_values_trailing_member_index_error :
    get_enum_values
      [.exprStmt (.constant (.str "Enum docstring.")),
       .assign [.name "VAL1"] (.constant (.str "one")),
       .exprStmt (.constant (.str "The first value.")),
       .assign [.name "VAL2"] (.constant (.str "two"))]
      = .error .indexError := by
  rfl

/-- C4: for a field whose deprecation marker is the boolean `False`,
`is_deprecated` returns `False` itself — not None as the claim (and the
function's `str | None` signature and docstring) state — and for a marker
that is the empty string it returns `""` unchanged rather than
`"Deprecated. "` prefixed text. -/
theorem C4_falsy_marker_passthrough :
    is_deprecated
      { annots := ["field2"],
        model_fields := [("field2",
          { aliasName := none, description := none, examples := none,
            deprecated := .boolVal false })] } "field2"
      = .ok (.boolVal false)
    ∧ is_deprecated
      { annots := ["field3"],
        model_fields := [("field3",
          { aliasName := none, description := none, examples := none,
            deprecated := .strVal "" })] } "field3"
      = .ok (.strVal "")
    ∧ PyVal.boolVal false ≠ PyVal.noneVal := by
  exact ⟨rfl, rfl, by decide⟩

/-- C7: a non-private field explicitly marked `deprecated=False` is not
deprecated, so the claim says it is rendered; but `is_deprecated` returns
`False` (not None), the `deprecation_warning is None` test fails, and the
model directive skips the field.  The same field with an unset (None)
marker is rendered. -/
theorem C7_deprecated_false_field_skipped :
    modelDirectiveRenders
      { annots := ["field2"],
        model_fields := [("field2",
          { aliasName := none, description := none, examples := none,
            deprecated := .boolVal false })] } none "field2"
      = .ok false
    ∧ isPrivateField "field2" = false
    ∧ pyTruthy (.boolVal false) = false
    ∧ modelDirectiveRenders
      { annots := ["field2"],
        model_fields := [("field2",
          { aliasName := none, description := none, examples := none,
            deprecated := .noneVal })] } none "field2"
      = .ok true := by
  exact ⟨rfl, rfl, rfl, rfl⟩

/-- C5 counterexample: the claim says every unresolvable class path —
including a path with no module component — raises an import-style error,
but resolving the dotless path "Foo" fails tuple unpacking and raises
`ValueError`, which is not the import error. -/
theorem C5_dotless_path_not_import_error :
    get_pydantic_model [] "" "Foo" "" = .error .valueError
    ∧ PyErr.valueError ≠ PyErr.importError := by
  exact ⟨rfl, by decide⟩

/-- C5 (amended): the failure taxonomy as the code implements it.
(1) A model path with no module component (no dot) raises `ValueError`
from tuple unpacking; (2) a module that cannot be imported raises
`ImportError`; (3) an importable module without the named attribute raises
`AttributeError`; (4) a named attribute that is not a pydantic model class
raises `TypeError`; (5) a field name absent from the model's fields raises
`AttributeError` (a lookup error); (6) the `override-description` option
with no directive content raises the usage error
`sphinx.errors.ExtensionError`.  Each embedded operation returns the
error, which aborts the single field being processed. -/
theorem C5_failure_taxonomy :
    (∀ (env : ModuleEnv) (model_name field_name : String),
      model_name.data.contains '.' = false →
      get_pydantic_model env "" model_name field_name = .error .valueError)
    ∧ (∀ (env : ModuleEnv) (py_module model_name field_name module_str class_str : String),
      rsplitDot (mkModelPath py_module model_name) = some (module_str, class_str) →
      module_str ≠ "" → env.lookup module_str = none →
      get_pydantic_model env py_module model_name field_name = .error .importError)
    ∧ (∀ (env : ModuleEnv) (py_module model_name field_name module_str class_str : String)
        (mod : List (String × ModuleAttr)),
      rsplitDot (mkModelPath py_module model_name) = some (module_str, class_str) →
      module_str ≠ "" → env.lookup module_str = some mod →
      mod.lookup class_str = none →
      get_pydantic_model env py_module model_name field_name = .error .attributeError)
    ∧ (∀ (env : ModuleEnv) (py_module model_name field_name module_str class_str : String)
        (mod : List (String × ModuleAttr)),
      rsplitDot (mkModelPath py_module model_name) = some (module_str, class_str) →
      module_str ≠ "" → env.lookup module_str = some mod →
      (mod.lookup class_str = some .nonModelClass ∨ mod.lookup class_str = some .nonClass) →
      get_pydantic_model env py_module model_name field_name = .error .typeError)
    ∧ (∀ (env : ModuleEnv) (py_module model_name field_name module_str class_str : String)
        (mod : List (String × ModuleAttr)) (fields : List String) (mro : List MroEntry),
      rsplitDot (mkModelPath py_module model_name) = some (module_str, class_str) →
      module_str ≠ "" → env.lookup module_str = some mod →
      mod.lookup class_str = some (.modelClass fields mro) →
      field_name ≠ "" → fields.contains field_name = false →
      get_pydantic_model env py_module model_name field_name = .error .attributeError)
    ∧ (∀ (content : List String) (field_description : Option String),
      content = [] →
      applyDescriptionOptions true content field_description = .error .extensionError) := by
  refine ⟨?_, ?_, ?_, ?_, ?_, ?_⟩
  · intro env model_name field_name h
    have h' : '.' ∉ model_name.data := by simpa using h
    simp [get_pydantic_model, mkModelPath, rsplitDot, h']
  · intro env py_module model_name field_name module_str class_str h1 h2 h3
    simp [get_pydantic_model, h1, h2, h3]
  · intro env py_module model_name field_name module_str class_str mod h1 h2 h3 h4
    simp [get_pydantic_model, h1, h2, h3, h4]
  · intro env py_module model_name field_name module_str class_str mod h1 h2 h3 h4
    rcases h4 with h4 | h4 <;> simp [get_pydantic_model, h1, h2, h3, h4]
  · intro env py_module model_name field_name module_str class_str mod fields mro
      h1 h2 h3 h4 h5 h6
    have h6' : field_name ∉ fields := by simpa using h6
    simp [get_pydantic_model, h1, h2, h3, h4, h5, h6']
  · intro content field_description h
    simp [applyDescriptionOptions, h]

/-- C5 witness: each failure clause evaluated at a concrete input — the
dotless path, a missing module, a module without the class, a non-model
attribute, a missing field, and an empty content override. -/
theorem C5_failure_taxonomy_witness :
    get_pydantic_model [] "" "Foo" "" = .error .valueError
    ∧ get_pydantic_model [] "" "nope.Model" "" = .error .importError
    ∧ get_pydantic_model [("m", [("Bad", ModuleAttr.nonClass)])] "" "m.Missing" ""
        = .error .attributeError
    ∧ get_pydantic_model [("m", [("Bad", ModuleAttr.nonClass)])] "" "m.Bad" ""
        = .error .typeError
    ∧ get_pydantic_model
        [("m", [("Good", ModuleAttr.modelClass ["f"]
          [{ clsName := "Good", isBaseModel := true, annots := ["f"] }])])]
        "" "m.Good" "g" = .error .attributeError
    ∧ applyDescriptionOptions true [] none = .error .extensionError := by
  refine ⟨C5_failure_taxonomy.1 [] "Foo" "" rfl,
    C5_failure_taxonomy.2.1 [] "" "nope.Model" "" "nope" "Model" rfl (by decide) rfl,
    C5_failure_taxonomy.2.2.1 [("m", [("Bad", ModuleAttr.nonClass)])] "" "m.Missing" ""
      "m" "Missing" [("Bad", ModuleAttr.nonClass)] rfl (by decide) rfl rfl,
    C5_failure_taxonomy.2.2.2.1 [("m", [("Bad", ModuleAttr.nonClass)])] "" "m.Bad" ""
      "m" "Bad" [("Bad", ModuleAttr.nonClass)] rfl (by decide) rfl (Or.inr rfl),
    C5_failure_taxonomy.2.2.2.2.1
      [("m", [("Good", ModuleAttr.modelClass ["f"]
        [{ clsName := "Good", isBaseModel := true, annots := ["f"] }])])]
      "" "m.Good" "g" "m" "Good"
      [("Good", ModuleAttr.modelClass ["f"]
        [{ clsName := "Good", isBaseModel := true, annots := ["f"] }])]
      ["f"] [{ clsName := "Good", isBaseModel := true, annots := ["f"] }]
      rfl (by decide) rfl rfl (by decide) rfl,
    C5_failure_taxonomy.2.2.2.2.2 [] none rfl⟩

/-- C6: when the assembled example text fails to parse as YAML, the
examples block emits the non-fatal warning and its literal text equals the
raw input that was handed to the parser, after trivial normalization
(trailing newlines and a trailing `...` document-end marker stripped) —
not a dump serialization. -/
theorem C6_invalid_yaml_fallback (roundTrip : String → YamlResult)
    (field_alias exampleText : String)
    (h : roundTrip (exampleYamlInput field_alias exampleText) = .yamlError) :
    _build_examples_block roundTrip field_alias exampleText
      = (true, removesuffixDots (rstripNewlines (exampleYamlInput field_alias exampleText))) := by
  unfold _build_examples_block
  rw [h]

/-- C6 witness: the malformed example `a: [` under alias "test" warns and
falls back to the raw text `test: a: [`. -/
theorem C6_invalid_yaml_fallback_witness :
    _build_examples_block (fun _ => .yamlError) "test" "a: ["
      = (true, "test: a: [") := by
  rw [C6_invalid_yaml_fallback (fun _ => .yamlError) "test" "a: [" rfl]
  rfl

theorem find_fieldinfo_foldl (l : List MetaElem) :
    ∀ acc, l.foldl (fun result element =>
        match element with
        | MetaElem.fieldInfo fi => some fi
        | _ => result) acc
      = (specLastFieldInfo l).or acc := by
  induction l with
  | nil => intro acc; rfl
  | cons e es ih =>
    intro acc
    have hspec : specLastFieldInfo (e :: es)
        = (specLastFieldInfo es).or
          (match e with
           | MetaElem.fieldInfo fi => some fi
           | _ => none) := by
      unfold specLastFieldInfo
      rw [List.reverse_cons, List.findSome?_append]
      cases e <;> simp
    rw [List.foldl_cons, ih, hspec]
    cases hx : specLastFieldInfo es with
    | some fi => simp [Option.or]
    | none => cases e <;> simp [Option.or]

theorem find_fieldinfo_eq_specLast (metadata : List MetaElem) :
    find_fieldinfo (some metadata) = specLastFieldInfo metadata := by
  show metadata.foldl (fun result element =>
      match element with
      | MetaElem.fieldInfo fi => some fi
      | _ => result) none
    = specLastFieldInfo metadata
  rw [find_fieldinfo_foldl metadata none]
  cases specLastFieldInfo metadata <;> rfl

/-- C8: for an annotated optional type — a `typing.Union` of an
`Annotated[base, *metadata]` alias with None — the extractor selects the
last-occurring `FieldInfo` object of the metadata sequence (validators may
be interleaved), and applies its description and examples only when
neither was set by an earlier step: both are taken from it when
description and examples are both unset, and the two fields are left
unchanged whenever either is already set. -/
theorem C8_last_fieldinfo_conditional_apply (st : ExtractState) (base : PyType)
    (metadata : List MetaElem) (fi : FieldInfoData) :
    find_fieldinfo (some metadata) = specLastFieldInfo metadata
    ∧ (st.field_description = none → st.field_examples = none →
      specLastFieldInfo metadata = some fi →
      ((_get_optional_annotated_field_data st
          (some (.typingUnion [.annotated base metadata, .noneType]))).1.field_description
        = fi.description
      ∧ (_get_optional_annotated_field_data st
          (some (.typingUnion [.annotated base metadata, .noneType]))).1.field_examples
        = fi.examples))
    ∧ (st.field_description ≠ none ∨ st.field_examples ≠ none →
      ((_get_optional_annotated_field_data st
          (some (.typingUnion [.annotated base metadata, .noneType]))).1.field_description
        = st.field_description
      ∧ (_get_optional_annotated_field_data st
          (some (.typingUnion [.annotated base metadata, .noneType]))).1.field_examples
        = st.field_examples)) := by
  have heq := find_fieldinfo_eq_specLast metadata
  refine ⟨heq, ?_, ?_⟩
  · intro hd he hfi
    simp only [_get_optional_annotated_field_data, pyHasArgs, pyArgsAttr,
      originIsLiteral, pyMetadata, heq, hfi]
    simp [hd, he]
  · intro hne
    simp only [_get_optional_annotated_field_data, pyHasArgs, pyArgsAttr,
      originIsLiteral, pyMetadata, heq]
    cases hx : specLastFieldInfo metadata with
    | some fi2 =>
      have hcond : ¬ (st.field_description = none ∧ st.field_examples = none) := by
        rcases hne with h | h
        · exact fun hc => h hc.1
        · exact fun hc => h hc.2
      simp [hcond]
    | none => simp

/-- C8 witness: with two validators interleaved with two `FieldInfo`
objects, the second (last) `FieldInfo` is selected, and its description
and examples are applied to the freshly initialised state whose
description and examples are unset. -/
theorem C8_last_fieldinfo_conditional_apply_witness :
    find_fieldinfo (some
        [MetaElem.beforeValidator,
         MetaElem.fieldInfo { description := some "d1", examples := some ["e1"] },
         MetaElem.afterValidator,
         MetaElem.fieldInfo { description := some "d2", examples := none }])
      = some { description := some "d2", examples := none }
    ∧ (_get_optional_annotated_field_data ExtractState.init
        (some (.typingUnion [.annotated (.cls "builtins.str" false [] none)
          [MetaElem.beforeValidator,
           MetaElem.fieldInfo { description := some "d1", examples := some ["e1"] },
           MetaElem.afterValidator,
           MetaElem.fieldInfo { description := some "d2", examples := none }],
          .noneType]))).1.field_description
      = some "d2" := by
  have h := C8_last_fieldinfo_conditional_apply ExtractState.init
    (.cls "builtins.str" false [] none)
    [MetaElem.beforeValidator,
     MetaElem.fieldInfo { description := some "d1", examples := some ["e1"] },
     MetaElem.afterValidator,
     MetaElem.fieldInfo { description := some "d2", examples := none }]
    { description := some "d2", examples := none }
  refine ⟨h.1.trans (by rfl), (h.2.1 rfl rfl (by rfl)).1.trans (by rfl)⟩

/-- C9: on a field with alias "test", the prepend-name option "app" and
the append-name option "suffix" produce the display alias
"app.test.suffix" — prefix and suffix joined on with "." separators — and
that string is the leading section id and the title text of the rendered
field node, whatever the underlying field name and label. -/
theorem C9_prepend_append_display_alias (field_name label : String) :
    applyNameAffixes (baseAlias (some "test") field_name) "app" "suffix"
      = "app.test.suffix"
    ∧ createFieldNodeIds
        (applyNameAffixes (baseAlias (some "test") field_name) "app" "suffix") label
      = ["app.test.suffix", label]
    ∧ createFieldNodeTitle
        (applyNameAffixes (baseAlias (some "test") field_name) "app" "suffix")
      = "app.test.suffix" := by
  exact ⟨rfl, rfl, rfl⟩

end Kitbash
